import Mathlib

/-!
Verification development for the plex-bot media cache engine
(`media_cache.py`, class `MediaCache`).

The development shallowly embeds the cache engine:

- `MediaItem` models the dict-shaped media records stored in
  `MediaCache.media_items` and written to disk.
- `filter_quality_items` embeds `MediaCache._filter_quality_items`.
- `apply_media_type_filter`, `apply_genre_filter` and `paginate` embed the
  corresponding blocks of `MediaCache.get_items`.
- `CacheState`, `is_cache_valid`, `ensure_cache_valid`, `update_cache`,
  `load_cache_from_disk` and the `Env` record embed the refresh state
  machine, with the Tautulli client abstracted as an environment of
  API results.
- `SaveOp` / `run_save` embed the filesystem steps performed by
  `MediaCache.save_cache_to_disk` so that crash points (prefixes of the
  operation sequence) can be examined.
- `RefreshState` / `step_caller` embed the check-acquire-recheck lock
  protocol of `ensure_cache_valid` and `update_cache` as an interleaving
  transition system, including the fact that the successful fetch path
  then awaits the disk save while still holding the non-reentrant lock
  and therefore never returns.
- `LockOp` / `lock_ops_run` embed the lock acquire/release structure of
  `update_cache` and `save_cache_to_disk` over the single non-reentrant
  `asyncio.Lock` named `cache_lock`.

Definitions named `spec_*` are the second definitions of refinement-style
claims: they follow the wording of the specification and are compared
against the definitions translated from the source.
-/

/-- One cached media record. This models the dict built by
`MediaCache._fetch_item_metadata` (media_cache.py lines 435-448) and, more
generally, any record stored in `MediaCache.media_items` or in the cache
file. A field of value `none` models a dict key that is absent or set to
`None`, matching the `dict.get` access pattern used at every read site.
`rating_key` is mandatory: `save_cache_to_disk` and `load_cache_from_disk`
index records by `item["rating_key"]`, which raises on a record without
it, so a well-formed record always carries one. Keys are modelled after
the `str(...)` conversion the source applies, hence `String`. -/
structure MediaItem where
  rating_key : String
  title : Option String := none
  media_type : Option String := none
  genres : Option (List String) := none
  thumb : Option String := none
  year : Option Int := none
  play_count : Option Int := none
  last_played : Option Int := none
  summary : Option String := none
  rating : Option String := none
  parent_rating_key : Option String := none
  grandparent_rating_key : Option String := none
deriving Repr, DecidableEq

/-- Python truthiness of an optional string: `None` and the empty string
are falsy, every other string is truthy. -/
def py_truthy_str : Option String → Bool
  | none => false
  | some s => !(s == "")

/-- Python truthiness of an optional integer: `None` and `0` are falsy. -/
def py_truthy_int : Option Int → Bool
  | none => false
  | some n => !(n == 0)

/-- Python truthiness of an optional list: `None` and the empty list are
falsy. -/
def py_truthy_genres : Option (List String) → Bool
  | none => false
  | some l => !(l == [])

/-- Lower-casing of a string, applied character by character. This models
the Python `str.lower()` calls of the source on its ASCII fragment. It is
defined by structural recursion over the character list so that concrete
instances evaluate inside the kernel. -/
def py_lower (s : String) : String :=
  String.mk (s.data.map Char.toLower)

/-- First exclusion test of `MediaCache._filter_quality_items`
(media_cache.py lines 345-352): the record title is exactly the
"Unknown Title" sentinel and genres, year, play count, summary and rating
are all falsy. The genre test mirrors the redundant source expression
`not item.get("genres") or len(item.get("genres", [])) == 0`. -/
def unknown_title_no_metadata (item : MediaItem) : Bool :=
  (item.title == some "Unknown Title")
    && (!(py_truthy_genres item.genres) || ((item.genres.getD []).length == 0))
    && !(py_truthy_int item.year)
    && !(py_truthy_int item.play_count)
    && !(py_truthy_str item.summary)
    && !(py_truthy_str item.rating)

/-- Second exclusion test of `MediaCache._filter_quality_items`
(media_cache.py lines 356-358): media type is the literal "unknown" and
genres are falsy or empty. -/
def unknown_type_no_genres (item : MediaItem) : Bool :=
  (item.media_type == some "unknown")
    && (!(py_truthy_genres item.genres) || ((item.genres.getD []).length == 0))

/-- Embedding of `MediaCache._filter_quality_items` (media_cache.py lines
335-364): the loop skips a record matching either exclusion test (the
`continue` branches) and keeps every other record in order. -/
def filter_quality_items : List MediaItem → List MediaItem
  | [] => []
  | item :: rest =>
    if unknown_title_no_metadata item then filter_quality_items rest
    else if unknown_type_no_genres item then filter_quality_items rest
    else item :: filter_quality_items rest

/-- Spec-side helper: genres empty or absent, per the claim wording. -/
def spec_empty_genres : Option (List String) → Bool
  | none => true
  | some l => l == []

/-- Spec-side helper: integer field zero or absent, per the claim
wording. -/
def spec_empty_int : Option Int → Bool
  | none => true
  | some n => n == 0

/-- Spec-side helper: string field empty or absent, per the claim
wording. -/
def spec_empty_str : Option String → Bool
  | none => true
  | some s => s == ""

/-- Modelled from the claim wording of C7: a record is excluded iff
(kind is "unknown" and genres are empty) or (the title is the
"Unknown Title" sentinel and genres, year, playCount, summary and rating
are all empty, zero or absent). -/
def spec_quality_drop (item : MediaItem) : Bool :=
  ((item.media_type == some "unknown") && spec_empty_genres item.genres)
    || ((item.title == some "Unknown Title")
        && spec_empty_genres item.genres
        && spec_empty_int item.year
        && spec_empty_int item.play_count
        && spec_empty_str item.summary
        && spec_empty_str item.rating)

lemma spec_empty_genres_eq (o : Option (List String)) :
    spec_empty_genres o = !(py_truthy_genres o) := by
  cases o <;> simp [spec_empty_genres, py_truthy_genres]

lemma spec_empty_int_eq (o : Option Int) :
    spec_empty_int o = !(py_truthy_int o) := by
  cases o <;> simp [spec_empty_int, py_truthy_int]

lemma spec_empty_str_eq (o : Option String) :
    spec_empty_str o = !(py_truthy_str o) := by
  cases o <;> simp [spec_empty_str, py_truthy_str]

lemma genres_test_eq (o : Option (List String)) :
    (!(py_truthy_genres o) || ((o.getD []).length == 0)) = !(py_truthy_genres o) := by
  cases o with
  | none => simp [py_truthy_genres]
  | some l => cases l <;> simp [py_truthy_genres]

lemma spec_quality_drop_eq (item : MediaItem) :
    spec_quality_drop item
      = (unknown_type_no_genres item || unknown_title_no_metadata item) := by
  unfold spec_quality_drop unknown_type_no_genres unknown_title_no_metadata
  rw [genres_test_eq, spec_empty_genres_eq, spec_empty_int_eq, spec_empty_int_eq,
    spec_empty_str_eq, spec_empty_str_eq]

lemma filter_quality_items_eq_filter (items : List MediaItem) :
    filter_quality_items items = items.filter (fun it => !(spec_quality_drop it)) := by
  induction items with
  | nil => rfl
  | cons item rest ih =>
    rw [filter_quality_items, List.filter_cons]
    rw [spec_quality_drop_eq]
    cases h1 : unknown_title_no_metadata item with
    | true => simp [h1, ih]
    | false =>
      cases h2 : unknown_type_no_genres item with
      | true => simp [h1, h2, ih]
      | false => simp [h1, h2, ih]

/-- C7. Quality filter semantics: the ingestion filter drops a record if
and only if it matches one of the two exclusion rules of the claim, and
keeps every other record; in particular the record with the
"Unknown Title" sentinel, kind "movie", empty genres and year 1999 is
kept, while the record with the sentinel title, kind "unknown" and empty
genres is dropped. -/
theorem C7_quality_filter :
    (∀ items : List MediaItem,
      filter_quality_items items = items.filter (fun it => !(spec_quality_drop it)))
    ∧ filter_quality_items
        [{ rating_key := "y", title := some "Unknown Title",
           media_type := some "movie", genres := some [], year := some 1999 }]
      = [{ rating_key := "y", title := some "Unknown Title",
           media_type := some "movie", genres := some [], year := some 1999 }]
    ∧ filter_quality_items
        [{ rating_key := "x", title := some "Unknown Title",
           media_type := some "unknown", genres := some [] }]
      = [] := by
  refine ⟨filter_quality_items_eq_filter, ?_, ?_⟩ <;> decide

/-- Effective kind of a record as read by `MediaCache.get_items`
(media_cache.py line 176): `item.get("media_type", "unknown").lower()`. -/
def record_kind (item : MediaItem) : String :=
  py_lower (item.media_type.getD "unknown")

/-- Embedding of the media type filter block of `MediaCache.get_items`
(media_cache.py lines 167-177). The argument models the Python optional
parameter: `none` is `None`, and the guard `if media_type:` also treats
the empty string as absent. -/
def apply_media_type_filter (items : List MediaItem) (media_type : Option String) :
    List MediaItem :=
  match media_type with
  | none => items
  | some mt =>
    if mt == "" then items
    else
      let valid_media_types : List String :=
        if py_lower mt == "tv" then ["show", "episode"]
        else if py_lower mt == "movie" then ["movie"]
        else [py_lower mt]
      items.filter (fun item => valid_media_types.contains (record_kind item))

/-- Embedding of the genre filter block of `MediaCache.get_items`
(media_cache.py lines 180-184). The guard `if genres:` treats `None` and
the empty list as absent. -/
def apply_genre_filter (items : List MediaItem) (genres : Option (List String)) :
    List MediaItem :=
  match genres with
  | none => items
  | some gs =>
    if gs == [] then items
    else
      let genres_lower := gs.map py_lower
      items.filter (fun item =>
        (item.genres.getD []).any (fun g => genres_lower.contains (py_lower g)))

/-- Python normalization of one slice bound for a list of length `n`:
negative bounds count from the end, and the result is clamped to
`[0, n]`. -/
def py_bound (n : Nat) (i : Int) : Int :=
  if i < 0 then max ((n : Int) + i) 0 else min i (n : Int)

/-- Python list slice `l[a:b]` for integer bounds. -/
def py_slice (l : List MediaItem) (a b : Int) : List MediaItem :=
  (l.drop (py_bound l.length a).toNat).take
    ((py_bound l.length b) - (py_bound l.length a)).toNat

/-- Embedding of the pagination step of `MediaCache.get_items`
(media_cache.py line 198): `items[offset : offset + limit]`. -/
def paginate (items : List MediaItem) (offset limit : Int) : List MediaItem :=
  py_slice items offset (offset + limit)

/-- Modelled from the claim wording of C8: the predicate a record must
satisfy for a given kind filter value. -/
def spec_kind_pred (kind_filter : Option String) (item : MediaItem) : Bool :=
  match kind_filter with
  | none => true
  | some f =>
    if f == "" then true
    else if f == "tv" then (record_kind item == "show") || (record_kind item == "episode")
    else if f == "movie" then record_kind item == "movie"
    else record_kind item == f

/-- Modelled from the claim wording of C8: a genre filter keeps a record
iff any of its genres case-insensitively equals any filter genre. -/
def spec_genre_pred (gs : List String) (item : MediaItem) : Bool :=
  (item.genres.getD []).any (fun g => gs.any (fun f => py_lower g == py_lower f))

/-- Modelled from the claim wording of C9: one slice bound clamped to the
list bounds, with no special treatment of negative values. -/
def spec_clamp (n : Nat) (i : Int) : Int :=
  max 0 (min i (n : Int))

/-- Modelled from the claim wording of C9: the slice
[offset, offset + limit) clamped to the list bounds. -/
def spec_paginate (items : List MediaItem) (offset limit : Int) : List MediaItem :=
  (items.drop (spec_clamp items.length offset).toNat).take
    ((spec_clamp items.length (offset + limit)) - (spec_clamp items.length offset)).toNat

lemma contains_map_py_lower (gs : List String) (x : String) :
    (gs.map py_lower).contains x = gs.any (fun f => x == py_lower f) := by
  induction gs with
  | nil => rfl
  | cons g rest ih =>
    rw [List.map_cons, List.contains_cons, List.any_cons, ih]

lemma py_bound_of_nonneg (n : Nat) (i : Int) (h : 0 ≤ i) :
    py_bound n i = spec_clamp n i := by
  unfold py_bound spec_clamp
  rw [if_neg (not_lt.mpr h), max_comm, max_eq_left (le_min h (Int.natCast_nonneg n))]

lemma string_beq_decide (a b : String) : (a == b) = decide (a = b) := by
  by_cases hab : a = b <;> simp [hab]

lemma valid_types_contains (f : String) (hne : f ≠ "") (h : py_lower f = f)
    (item : MediaItem) :
    ((if py_lower f == "tv" then ["show", "episode"]
      else if py_lower f == "movie" then ["movie"]
      else [py_lower f]) : List String).contains (record_kind item)
      = spec_kind_pred (some f) item := by
  rw [h]
  by_cases h1 : f = "tv"
  · subst h1; simp [spec_kind_pred, List.contains_cons, string_beq_decide]
  · by_cases h2 : f = "movie"
    · subst h2; simp [spec_kind_pred, List.contains_cons, string_beq_decide]
    · simp [spec_kind_pred, List.contains_cons, h1, h2, hne, string_beq_decide]

lemma apply_media_type_filter_eq (items : List MediaItem) (mt : Option String)
    (h : py_lower (mt.getD "") = mt.getD "") :
    apply_media_type_filter items mt
      = items.filter (fun it => spec_kind_pred mt it) := by
  cases mt with
  | none => simp [apply_media_type_filter, spec_kind_pred]
  | some f =>
    by_cases hf : f = ""
    · subst hf; simp [apply_media_type_filter, spec_kind_pred]
    · have h' : py_lower f = f := by simpa using h
      simp only [apply_media_type_filter]
      rw [if_neg (by simp [hf])]
      exact List.filter_congr (fun a _ => valid_types_contains f hf h' a)

lemma apply_genre_filter_eq (items : List MediaItem) (gs : List String)
    (h : gs ≠ []) :
    apply_genre_filter items (some gs)
      = items.filter (fun it => spec_genre_pred gs it) := by
  simp only [apply_genre_filter]
  rw [if_neg (by simp [h])]
  refine List.filter_congr (fun a _ => ?_)
  unfold spec_genre_pred
  simp only [contains_map_py_lower]

/-- C8. Kind and genre filter semantics: for a kind filter value already
in its normalized lower-case form, the media type filter keeps exactly
the records whose effective kind satisfies the claim predicate ("tv"
expands to show or episode, "movie" to movie, any other non-empty value
matches literally, empty or absent passes everything); the genre filter
keeps a record iff any of its genres case-insensitively equals any filter
genre, and an absent or empty genre filter passes everything; and on the
three-record example, filtering by "tv" and ["comedy"] returns records 2
and 3 only. -/
theorem C8_kind_and_genre_filter :
    (∀ (items : List MediaItem) (mt : Option String),
        py_lower (mt.getD "") = mt.getD "" →
        apply_media_type_filter items mt
          = items.filter (fun it => spec_kind_pred mt it))
    ∧ (∀ (items : List MediaItem) (gs : List String), gs ≠ [] →
        apply_genre_filter items (some gs)
          = items.filter (fun it => spec_genre_pred gs it))
    ∧ (∀ items : List MediaItem,
        apply_genre_filter items none = items
        ∧ apply_genre_filter items (some []) = items)
    ∧ apply_genre_filter
        (apply_media_type_filter
          [{ rating_key := "1", media_type := some "movie", genres := some ["horror"] },
           { rating_key := "2", media_type := some "show", genres := some ["comedy"] },
           { rating_key := "3", media_type := some "episode", genres := some ["comedy"] }]
          (some "tv"))
        (some ["comedy"])
      = [{ rating_key := "2", media_type := some "show", genres := some ["comedy"] },
         { rating_key := "3", media_type := some "episode", genres := some ["comedy"] }] := by
  refine ⟨apply_media_type_filter_eq, apply_genre_filter_eq, ?_, ?_⟩
  · intro items; exact ⟨rfl, rfl⟩
  · decide

/-- Witness for C8 at concrete inputs: a literal kind filter value and a
mixed-case genre filter. -/
theorem C8_witness :
    apply_media_type_filter [{ rating_key := "m", media_type := some "music" }]
        (some "music")
      = [({ rating_key := "m", media_type := some "music" } : MediaItem)].filter
          (fun it => spec_kind_pred (some "music") it)
    ∧ apply_genre_filter [{ rating_key := "m", genres := some ["Comedy"] }]
        (some ["comedy"])
      = [({ rating_key := "m", genres := some ["Comedy"] } : MediaItem)].filter
          (fun it => spec_genre_pred ["comedy"] it) :=
  ⟨C8_kind_and_genre_filter.1 _ _ (by decide),
   C8_kind_and_genre_filter.2.1 _ _ (by decide)⟩

lemma paginate_eq_spec (items : List MediaItem) (offset limit : Int)
    (hoff : 0 ≤ offset) (hlim : 0 ≤ limit) :
    paginate items offset limit = spec_paginate items offset limit := by
  unfold paginate py_slice spec_paginate
  rw [py_bound_of_nonneg _ _ hoff, py_bound_of_nonneg _ _ (by omega)]

lemma paginate_ge_length (items : List MediaItem) (offset limit : Int)
    (h : (items.length : Int) ≤ offset) :
    paginate items offset limit = [] := by
  unfold paginate py_slice
  have hlo : py_bound items.length offset = (items.length : Int) := by
    unfold py_bound
    rw [if_neg (by omega), min_eq_right h]
  rw [hlo]
  simp

/-- C9 (amended). Pagination totality for nonnegative offset and limit:
the result is the slice [offset, offset + limit) clamped to the list
bounds, any offset at or past the length yields the empty list (for every
limit, even negative), and the five-record example with offset 3 and
limit 10 yields exactly 2 records. Negative offsets and limits follow
Python end-relative slice semantics instead, see the counterexample. -/
theorem C9_pagination_amended :
    (∀ (items : List MediaItem) (offset limit : Int), 0 ≤ offset → 0 ≤ limit →
        paginate items offset limit = spec_paginate items offset limit)
    ∧ (∀ (items : List MediaItem) (offset limit : Int),
        (items.length : Int) ≤ offset → paginate items offset limit = [])
    ∧ (paginate
        [{ rating_key := "1" }, { rating_key := "2" }, { rating_key := "3" },
         { rating_key := "4" }, { rating_key := "5" }] 3 10).length = 2 := by
  refine ⟨paginate_eq_spec, paginate_ge_length, ?_⟩
  decide

/-- Counterexample for C9 as stated: on five records, the offset -2 is
outside the list range, yet the code returns the last two records rather
than the empty list, and disagrees with the clamped-slice reading of the
claim. -/
theorem C9_counterexample :
    paginate
        [{ rating_key := "1" }, { rating_key := "2" }, { rating_key := "3" },
         { rating_key := "4" }, { rating_key := "5" }] (-2) 10
      = [{ rating_key := "4" }, { rating_key := "5" }]
    ∧ paginate
        [{ rating_key := "1" }, { rating_key := "2" }, { rating_key := "3" },
         { rating_key := "4" }, { rating_key := "5" }] (-2) 10
      ≠ []
    ∧ paginate
        [{ rating_key := "1" }, { rating_key := "2" }, { rating_key := "3" },
         { rating_key := "4" }, { rating_key := "5" }] (-2) 10
      ≠ spec_paginate
        [{ rating_key := "1" }, { rating_key := "2" }, { rating_key := "3" },
         { rating_key := "4" }, { rating_key := "5" }] (-2) 10 := by
  refine ⟨by decide, by decide, by decide⟩

/-- Witness for C9 at concrete inputs. -/
theorem C9_witness :
    paginate [{ rating_key := "1" }] 0 5 = spec_paginate [{ rating_key := "1" }] 0 5
    ∧ paginate [{ rating_key := "1" }] 2 5 = [] :=
  ⟨C9_pagination_amended.1 _ 0 5 (by decide) (by decide),
   C9_pagination_amended.2.1 _ 2 5 (by decide)⟩

/-- Insertion of one key into a Python-style dict modelled as an
association list: an existing key keeps its position and receives the new
value, a new key is appended at the end. -/
def dict_insert (m : List (String × MediaItem)) (k : String) (v : MediaItem) :
    List (String × MediaItem) :=
  if m.any (fun p => p.1 == k) then
    m.map (fun p => if p.1 == k then (k, v) else p)
  else m ++ [(k, v)]

/-- The dict comprehension used at media_cache.py lines 60, 110 and 240:
it builds the mapping from `str(item["rating_key"])` to the item, a later
duplicate key overwriting an earlier value. Keys are modelled after the
`str` conversion, which is the identity on the string keys of the
embedding. -/
def dict_of_items (items : List MediaItem) : List (String × MediaItem) :=
  items.foldl (fun m it => dict_insert m it.rating_key it) []

/-- Outcome of one Tautulli API call as observed by the cache code: `ok`
is a response whose result field is "success", carrying its payload;
`fail` is a falsy or non-success response; `exn` is a raised
exception. -/
inductive ApiResult (α : Type) where
  | ok (data : α)
  | fail
  | exn
deriving Repr, DecidableEq

/-- One library entry of a Tautulli `get_libraries` response. -/
structure Library where
  section_id : String
  section_name : String
  section_type : String
deriving Repr, DecidableEq

/-- Raw metadata payload of a Tautulli `get_metadata` response, with
`none` for a key that is absent (or present but null, which the `get`
calls of the source treat the same except for the three keys carrying an
explicit default, where a null value is a corner the embedding merges
with absence). -/
structure Metadata where
  title : Option String := none
  media_type : Option String := none
  genres : Option (List String) := none
  thumb : Option String := none
  year : Option Int := none
  play_count : Option Int := none
  last_played : Option Int := none
  summary : Option String := none
  rating : Option String := none
  parent_rating_key : Option String := none
  grandparent_rating_key : Option String := none
deriving Repr, DecidableEq

/-- The Tautulli client as an abstract environment: each field gives the
outcome of the corresponding API method. The throttling in the source
(batches of 20, the semaphore of size 10, the sleeps) only schedules
these calls; it does not change which calls are made or their results,
so the embedding keeps the results only. -/
structure Env where
  get_server_info : ApiResult Unit
  get_libraries : ApiResult (List Library)
  get_library_media_info : String → ApiResult (List String)
  get_metadata : String → ApiResult Metadata

/-- Python `x or d` for an optional string: `None` and the empty string
fall back to the default. -/
def py_or_str (o : Option String) (d : String) : String :=
  match o with
  | none => d
  | some s => if s == "" then d else s

/-- Embedding of `MediaCache._fetch_item_metadata` (media_cache.py lines
420-455): a success response is normalized into the standardized item
dict (sentinel title, lower-cased media type and genres, defaulted play
count, summary and rating); a failed call or a raised exception yields
`none` and the item is dropped. -/
def fetch_item_metadata (env : Env) (rating_key : String) : Option MediaItem :=
  match env.get_metadata rating_key with
  | .ok metadata =>
    some
      { rating_key := rating_key
        title := some (py_or_str metadata.title "Unknown Title")
        media_type := some (py_lower (py_or_str metadata.media_type "unknown"))
        genres := some ((metadata.genres.getD []).map py_lower)
        thumb := metadata.thumb
        year := metadata.year
        play_count := some (metadata.play_count.getD 0)
        last_played := metadata.last_played
        summary := some (metadata.summary.getD "")
        rating := some (metadata.rating.getD "")
        parent_rating_key := metadata.parent_rating_key
        grandparent_rating_key := metadata.grandparent_rating_key }
  | .fail => none
  | .exn => none

/-- Embedding of `MediaCache._process_library` (media_cache.py lines
366-418): a failed or raising `get_library_media_info` call makes the
library contribute no records (the exception is caught inside the
method); otherwise the metadata of each listed rating key is fetched and
per-item failures are dropped individually. The library media info
response is modelled directly as the list of rating keys the source
extracts from it. -/
def process_library (env : Env) (library : Library) : List MediaItem :=
  match env.get_library_media_info library.section_id with
  | .ok rating_keys => rating_keys.filterMap (fetch_item_metadata env)
  | .fail => []
  | .exn => []

/-- Embedding of `MediaCache._get_libraries` (media_cache.py lines
457-470): a falsy or non-success response yields the empty library list
(logged only), a raised exception propagates to the caller, and a
success response is filtered to the supported section types. -/
def get_libraries (env : Env) : Except Unit (List Library) :=
  match env.get_libraries with
  | .ok libraries =>
    .ok (libraries.filter
      (fun lib =>
        lib.section_type == "movie" || lib.section_type == "show"
          || lib.section_type == "episode"))
  | .fail => .ok []
  | .exn => .error ()

/-- Embedding of `MediaCache._fetch_all_media_items` (media_cache.py
lines 301-333): list the libraries, gather the per-library results
(each library is total by itself), concatenate them and apply the
quality filter. An exception from `_get_libraries` propagates. -/
def fetch_all_media_items (env : Env) : Except Unit (List MediaItem) :=
  match get_libraries env with
  | .error e => .error e
  | .ok libraries =>
    .ok (filter_quality_items ((libraries.map (process_library env)).flatten))

/-- In-memory state of the cache object: the `media_items` dict (an
association list in insertion order), the `last_updated` timestamp and
the `update_interval` in seconds. Time is modelled as integer seconds. -/
structure CacheState where
  media_items : List (String × MediaItem)
  last_updated : Option Int
  update_interval : Int
deriving Repr, DecidableEq

/-- Embedding of `MediaCache.is_cache_valid` (media_cache.py lines 73-83)
read at time `now`: an empty dict is always invalid, an unset timestamp
is invalid, and otherwise the elapsed seconds must be strictly below the
update interval. -/
def is_cache_valid (s : CacheState) (now : Int) : Bool :=
  if s.media_items.isEmpty then false
  else
    match s.last_updated with
    | none => false
    | some t => decide (now - t < s.update_interval)

/-- Embedding of `MediaCache.update_cache` (media_cache.py lines 90-119)
as its effect on the in-memory state. Under the exclusive lock the
validity is re-checked first; then the connection test, the fetch
pipeline and the wholesale swap run in order, any exception is caught,
and every failure branch (including an error-free fetch that returns no
items) leaves the state untouched. The disk save the source performs
after the swap touches no field of this state; its lock behaviour and
filesystem behaviour are modelled separately by `LockOp` and `SaveOp`
below. -/
def update_cache (s : CacheState) (env : Env) (now : Int) : CacheState :=
  if is_cache_valid s now then s
  else
    match env.get_server_info with
    | .fail => s
    | .exn => s
    | .ok _ =>
      match fetch_all_media_items env with
      | .error _ => s
      | .ok new_items =>
        if new_items.isEmpty then s
        else
          { s with
            media_items := dict_of_items new_items
            last_updated := some now }

/-- Embedding of `MediaCache.ensure_cache_valid` (media_cache.py lines
85-88): update when invalid. The boolean records whether `update_cache`
was invoked, hence whether the remote source could be contacted at
all. -/
def ensure_cache_valid (s : CacheState) (env : Env) (now : Int) :
    CacheState × Bool :=
  if is_cache_valid s now then (s, false)
  else (update_cache s env now, true)

/-- Content of one file path: no file, a partially written file holding
the records serialized so far (not yet valid JSON, the closing bracket
is still missing), or a completely written JSON array of records. -/
inductive FileView where
  | absent
  | truncated (written : List MediaItem)
  | complete (records : List MediaItem)
deriving Repr, DecidableEq

/-- Embedding of `MediaCache.load_cache_from_disk` (media_cache.py lines
226-251) at load time `now`, reading the given view of the cache file: a
missing file leaves an empty dict and does not touch the timestamp, a
malformed file (a truncated write does not parse as JSON) resets the
dict to empty in the exception handler, and a complete file fills the
dict keyed by `str(item["rating_key"])` and stamps `last_updated` with
the load time, not with any age recorded on disk. -/
def load_cache_from_disk (s : CacheState) (file : FileView) (now : Int) :
    CacheState :=
  match file with
  | .absent => { s with media_items := [] }
  | .truncated _ => { s with media_items := [] }
  | .complete data =>
    { s with media_items := dict_of_items data, last_updated := some now }

lemma dict_insert_ne_nil (m : List (String × MediaItem)) (k : String)
    (v : MediaItem) : dict_insert m k v ≠ [] := by
  unfold dict_insert
  split
  · intro hc
    rcases m with _ | ⟨p, rest⟩
    · simp at *
    · simp at hc
  · simp

lemma foldl_dict_insert_ne_nil (items : List MediaItem)
    (acc : List (String × MediaItem)) (h : acc ≠ []) :
    items.foldl (fun m it => dict_insert m it.rating_key it) acc ≠ [] := by
  induction items generalizing acc with
  | nil => simpa using h
  | cons it rest ih =>
    simpa using ih (dict_insert acc it.rating_key it) (dict_insert_ne_nil _ _ _)

lemma dict_of_items_ne_nil (items : List MediaItem) (h : items ≠ []) :
    dict_of_items items ≠ [] := by
  rcases items with _ | ⟨it, rest⟩
  · exact absurd rfl h
  · unfold dict_of_items
    rw [List.foldl_cons]
    exact foldl_dict_insert_ne_nil rest _ (dict_insert_ne_nil _ _ _)

/-- C4. Stale-but-available atomicity on refresh failure: when the
collection listing fails (a falsy or non-success `get_libraries`
response, or a raised exception), `update_cache` returns the state
unchanged, so the snapshot dict and its `last_updated` timestamp after
the attempted refresh are identical to their values before it. -/
theorem C4_stale_but_available (s : CacheState) (env : Env) (now : Int)
    (h : env.get_libraries = ApiResult.fail ∨ env.get_libraries = ApiResult.exn) :
    update_cache s env now = s := by
  have hfetch : fetch_all_media_items env = .error ()
      ∨ fetch_all_media_items env = .ok [] := by
    unfold fetch_all_media_items get_libraries
    rcases h with hf | hf <;> rw [hf]
    · right; rfl
    · left; rfl
  rcases hs : env.get_server_info with u | _ | _ <;>
    rcases hfetch with hF | hF <;>
      simp [update_cache, hs, hF]

/-- Witness for C4 at a concrete stale state and an environment whose
library listing fails. -/
theorem C4_witness :
    update_cache
        { media_items := [("1", { rating_key := "1" })], last_updated := none,
          update_interval := 3600 }
        { get_server_info := .ok (), get_libraries := .fail,
          get_library_media_info := fun _ => .fail,
          get_metadata := fun _ => .fail }
        100
      = { media_items := [("1", { rating_key := "1" })], last_updated := none,
          update_interval := 3600 } :=
  C4_stale_but_available _ _ _ (Or.inl rfl)

/-- C6 (amended). Wholesale snapshot replacement: after a refresh that
actually runs (the state is invalid at the recheck), whose connection
test passes and whose fetch pipeline completes without error with at
least one record, the snapshot dict equals exactly the fetched record
list keyed by stringified id, with no merging with old records, and
`last_updated` is set to the refresh time. An error-free fetch that
returns the empty list leaves the old snapshot and timestamp in place
instead, see the counterexample. -/
theorem C6_wholesale_replacement (s : CacheState) (env : Env) (now : Int)
    (items : List MediaItem)
    (hstale : is_cache_valid s now = false)
    (hserver : env.get_server_info = ApiResult.ok ())
    (hfetch : fetch_all_media_items env = Except.ok items)
    (hne : items ≠ []) :
    (update_cache s env now).media_items = dict_of_items items
    ∧ (update_cache s env now).last_updated = some now := by
  have hni : items.isEmpty = false := by simpa using hne
  simp [update_cache, hstale, hserver, hfetch, hni]

/-- Witness for C6 at a concrete environment with one library holding
one item. -/
theorem C6_witness :
    (update_cache
        { media_items := [], last_updated := none, update_interval := 3600 }
        { get_server_info := .ok (),
          get_libraries := .ok [⟨"1", "Movies", "movie"⟩],
          get_library_media_info := fun _ => .ok ["7"],
          get_metadata := fun _ =>
            .ok { title := some "Alien", media_type := some "movie" } }
        100).media_items
      = dict_of_items
          [{ rating_key := "7", title := some "Alien",
             media_type := some "movie", genres := some [],
             play_count := some 0, summary := some "", rating := some "" }]
    ∧ (update_cache
        { media_items := [], last_updated := none, update_interval := 3600 }
        { get_server_info := .ok (),
          get_libraries := .ok [⟨"1", "Movies", "movie"⟩],
          get_library_media_info := fun _ => .ok ["7"],
          get_metadata := fun _ =>
            .ok { title := some "Alien", media_type := some "movie" } }
        100).last_updated
      = some 100 :=
  C6_wholesale_replacement _ _ _ _ (by decide) rfl rfl (by decide)

/-- Counterexample for C6 as stated: an environment whose listing
succeeds with zero libraries makes the fetch pipeline complete without
error with zero records, yet `update_cache` keeps the previous snapshot
and timestamp instead of installing the empty fetched list and the
refresh time. -/
theorem C6_counterexample :
    update_cache
        { media_items := [("1", { rating_key := "1" })], last_updated := none,
          update_interval := 3600 }
        { get_server_info := .ok (), get_libraries := .ok [],
          get_library_media_info := fun _ => .fail,
          get_metadata := fun _ => .fail }
        100
      = { media_items := [("1", { rating_key := "1" })], last_updated := none,
          update_interval := 3600 }
    ∧ fetch_all_media_items
        { get_server_info := .ok (), get_libraries := .ok [],
          get_library_media_info := fun _ => .fail,
          get_metadata := fun _ => .fail }
      = Except.ok []
    ∧ ({ media_items := [("1", { rating_key := "1" })], last_updated := none,
          update_interval := 3600 } : CacheState).media_items
      ≠ dict_of_items []
    ∧ ({ media_items := [("1", { rating_key := "1" })], last_updated := none,
          update_interval := 3600 } : CacheState).last_updated
      ≠ some 100 :=
  ⟨rfl, rfl, by decide, by decide⟩

/-- C10. A successful load from disk stamps `last_updated` with the load
time, so any non-empty on-disk snapshot, however old its records, passes
`is_cache_valid` for a full update interval after the load, and a query
within that window is served without invoking the refresh path that
contacts the remote source. -/
theorem C10_load_validity (s : CacheState) (data : List MediaItem)
    (t0 t : Int) (env : Env)
    (hne : data ≠ [])
    (hage : t - t0 < s.update_interval) :
    (load_cache_from_disk s (.complete data) t0).last_updated = some t0
    ∧ is_cache_valid (load_cache_from_disk s (.complete data) t0) t = true
    ∧ ensure_cache_valid (load_cache_from_disk s (.complete data) t0) env t
      = (load_cache_from_disk s (.complete data) t0, false) := by
  have hmap : (dict_of_items data).isEmpty = false := by
    simpa using dict_of_items_ne_nil data hne
  have hvalid :
      is_cache_valid (load_cache_from_disk s (.complete data) t0) t = true := by
    simp [is_cache_valid, load_cache_from_disk, hmap, hage]
  refine ⟨rfl, hvalid, ?_⟩
  simp [ensure_cache_valid, hvalid]

/-- Witness for C10: a one-record snapshot loaded at time 50 is still
valid at time 100 with a 3600-second interval, and a query at that time
does not trigger a refresh. -/
theorem C10_witness :
    (load_cache_from_disk
        { media_items := [], last_updated := none, update_interval := 3600 }
        (.complete [{ rating_key := "1" }]) 50).last_updated = some 50
    ∧ is_cache_valid
        (load_cache_from_disk
          { media_items := [], last_updated := none, update_interval := 3600 }
          (.complete [{ rating_key := "1" }]) 50) 100 = true
    ∧ ensure_cache_valid
        (load_cache_from_disk
          { media_items := [], last_updated := none, update_interval := 3600 }
          (.complete [{ rating_key := "1" }]) 50)
        { get_server_info := .fail, get_libraries := .fail,
          get_library_media_info := fun _ => .fail,
          get_metadata := fun _ => .fail }
        100
      = (load_cache_from_disk
          { media_items := [], last_updated := none, update_interval := 3600 }
          (.complete [{ rating_key := "1" }]) 50, false) :=
  C10_load_validity _ _ _ _ _ (by decide) (by decide)

/-- Filesystem state relevant to `save_cache_to_disk`: the view of the
final cache file path and of the temporary ".tmp" path next to it. -/
structure SaveFS where
  final : FileView
  temp : FileView
deriving Repr, DecidableEq

/-- One filesystem step of `MediaCache.save_cache_to_disk`
(media_cache.py lines 264-295). -/
inductive SaveOp where
  | open_temp
  | write_item (item : MediaItem)
  | close_temp
  | unlink_final
  | rename_temp_to_final
deriving Repr, DecidableEq

/-- Effect of one save step on the filesystem: opening the temp file
starts an empty partial write, each item write appends to it, closing it
completes it, `unlink` removes the final path, and `rename` moves the
temp content onto the final path. -/
def apply_save_op (fs : SaveFS) : SaveOp → SaveFS
  | .open_temp => { fs with temp := .truncated [] }
  | .write_item item =>
    { fs with
      temp :=
        match fs.temp with
        | .truncated l => .truncated (l ++ [item])
        | v => v }
  | .close_temp =>
    { fs with
      temp :=
        match fs.temp with
        | .truncated l => .complete l
        | v => v }
  | .unlink_final => { fs with final := .absent }
  | .rename_temp_to_final => { final := fs.temp, temp := .absent }

/-- The sequence of filesystem steps performed by
`MediaCache.save_cache_to_disk` (media_cache.py lines 253-299) for a
given list of records (the values of `media_items`) and a given
pre-existence of the final file: an empty record list returns before any
file operation (lines 260-262); otherwise the temp file is opened and
written item by item, closed, then the final path is unlinked when it
exists (lines 293-294), and the temp file is renamed onto the final path
(line 295). -/
def save_ops (records : List MediaItem) (has_final : Bool) : List SaveOp :=
  if records.isEmpty then []
  else
    [SaveOp.open_temp] ++ records.map SaveOp.write_item ++ [SaveOp.close_temp]
      ++ (if has_final then [SaveOp.unlink_final] else [])
      ++ [SaveOp.rename_temp_to_final]

/-- Execution of a sequence of save steps; a crash point is modelled by
running only a prefix of the sequence. -/
def run_save (fs : SaveFS) (ops : List SaveOp) : SaveFS :=
  ops.foldl apply_save_op fs

/-- Whether the final cache file exists, as tested by
`self.cache_file_path.exists()` at media_cache.py line 293. -/
def final_exists (fs : SaveFS) : Bool :=
  match fs.final with
  | .absent => false
  | _ => true

lemma run_save_append (fs : SaveFS) (l1 l2 : List SaveOp) :
    run_save fs (l1 ++ l2) = run_save (run_save fs l1) l2 := by
  simp [run_save, List.foldl_append]

lemma run_save_no_touch (ops : List SaveOp) (fs : SaveFS)
    (h : ∀ op ∈ ops,
      op ≠ SaveOp.unlink_final ∧ op ≠ SaveOp.rename_temp_to_final) :
    (run_save fs ops).final = fs.final := by
  induction ops generalizing fs with
  | nil => rfl
  | cons op rest ih =>
    have h1 := h op (List.mem_cons_self _ _)
    have h2 : ∀ o ∈ rest,
        o ≠ SaveOp.unlink_final ∧ o ≠ SaveOp.rename_temp_to_final :=
      fun o ho => h o (List.mem_cons_of_mem _ ho)
    simp only [run_save, List.foldl_cons]
    simp only [run_save] at ih
    rw [ih _ h2]
    cases op with
    | open_temp => rfl
    | write_item it => rfl
    | close_temp => rfl
    | unlink_final => exact absurd rfl h1.1
    | rename_temp_to_final => exact absurd rfl h1.2

lemma write_block_no_touch (records : List MediaItem) :
    ∀ op ∈ SaveOp.open_temp ::
        (records.map SaveOp.write_item ++ [SaveOp.close_temp]),
      op ≠ SaveOp.unlink_final ∧ op ≠ SaveOp.rename_temp_to_final := by
  intro op hop
  rcases List.mem_cons.mp hop with h | h
  · subst h; exact ⟨by simp, by simp⟩
  · rcases List.mem_append.mp h with h2 | h2
    · obtain ⟨x, _, rfl⟩ := List.mem_map.mp h2
      exact ⟨by simp, by simp⟩
    · simp only [List.mem_singleton] at h2
      subst h2; exact ⟨by simp, by simp⟩

lemma run_save_writes (records : List MediaItem) (fs : SaveFS)
    (acc : List MediaItem) (h : fs.temp = .truncated acc) :
    run_save fs (records.map SaveOp.write_item)
      = { fs with temp := .truncated (acc ++ records) } := by
  induction records generalizing fs acc with
  | nil =>
    cases fs with
    | mk fin tmp =>
      simp only [run_save, List.map_nil, List.foldl_nil, List.append_nil]
      simp only at h
      rw [h]
  | cons it rest ih =>
    simp only [run_save, List.map_cons, List.foldl_cons]
    have hstep : apply_save_op fs (SaveOp.write_item it)
        = { fs with temp := .truncated (acc ++ [it]) } := by
      simp [apply_save_op, h]
    rw [hstep]
    have := ih { fs with temp := FileView.truncated (acc ++ [it]) } (acc ++ [it]) rfl
    simp only [run_save] at this
    rw [this]
    simp

lemma run_save_write_block (records : List MediaItem) (fs : SaveFS) :
    run_save fs
        (SaveOp.open_temp ::
          (records.map SaveOp.write_item ++ [SaveOp.close_temp]))
      = { fs with temp := .complete records } := by
  simp only [run_save, List.foldl_cons, List.foldl_append]
  have hopen : apply_save_op fs SaveOp.open_temp
      = { fs with temp := FileView.truncated [] } := rfl
  rw [hopen]
  have hw := run_save_writes records { fs with temp := FileView.truncated [] } [] rfl
  simp only [run_save] at hw
  rw [hw]
  simp [apply_save_op]

lemma save_ops_decomp (records : List MediaItem) (b : Bool)
    (hne : records ≠ []) :
    save_ops records b
      = (SaveOp.open_temp ::
          (records.map SaveOp.write_item ++ [SaveOp.close_temp]))
        ++ ((if b then [SaveOp.unlink_final] else [])
            ++ [SaveOp.rename_temp_to_final]) := by
  unfold save_ops
  rw [if_neg (by simpa using hne)]
  simp

lemma run_save_save_ops_final (records : List MediaItem) (fs : SaveFS)
    (b : Bool) (hne : records ≠ []) :
    (run_save fs (save_ops records b)).final = .complete records := by
  rw [save_ops_decomp records b hne, run_save_append, run_save_write_block]
  cases b with
  | false => simp [run_save, apply_save_op]
  | true => simp [run_save, apply_save_op]

/-- C3 (amended). Save is serialize-then-swap, but with an
unlink-then-rename window: for every execution of save, the records are
fully serialized to a temporary file first, and at every intermediate
point (each prefix of the operation sequence, modelling a crash) the
final path holds the complete previous file, the complete new file, or
no file at all; provided the previous file was not itself partial, the
final path never holds a partially-written file. The claim as stated is
refuted by the counterexample: the source unlinks the previous final
file before the rename, so there is an intermediate point where the
final path holds neither the previous nor the new file. -/
theorem C3_save_crash_states (records : List MediaItem) (fs : SaveFS)
    (b : Bool) (k : Nat)
    (hfs : ∀ l, fs.final ≠ FileView.truncated l) :
    ((run_save fs ((save_ops records b).take k)).final = fs.final
      ∨ (run_save fs ((save_ops records b).take k)).final = FileView.absent
      ∨ (run_save fs ((save_ops records b).take k)).final
          = FileView.complete records)
    ∧ ∀ l, (run_save fs ((save_ops records b).take k)).final
        ≠ FileView.truncated l := by
  rcases eq_or_ne records [] with hrec | hrec
  · subst hrec
    simp only [save_ops, List.isEmpty_nil, if_pos, List.take_nil]
    exact ⟨Or.inl rfl, fun l => by simpa [run_save] using hfs l⟩
  · have hsplit :
        ((run_save fs ((save_ops records b).take k)).final = fs.final
          ∨ (run_save fs ((save_ops records b).take k)).final = FileView.absent
          ∨ (run_save fs ((save_ops records b).take k)).final
              = FileView.complete records) := by
      rw [save_ops_decomp records b hrec, List.take_append_eq_append_take,
        run_save_append]
      have hlen : (SaveOp.open_temp ::
          (records.map SaveOp.write_item ++ [SaveOp.close_temp])).length
          = records.length + 2 := by simp
      by_cases hk : k ≤ records.length + 2
      · have hm : k - (SaveOp.open_temp ::
            (records.map SaveOp.write_item ++ [SaveOp.close_temp])).length
            = 0 := by
          rw [hlen]; omega
        rw [hm, List.take_zero]
        have hfinal : (run_save fs ((SaveOp.open_temp ::
            (records.map SaveOp.write_item ++ [SaveOp.close_temp])).take k)).final
            = fs.final :=
          run_save_no_touch _ _
            (fun op hop => write_block_no_touch records op
              (List.take_subset _ _ hop))
        left
        simpa [run_save] using hfinal
      · have hBtake : (SaveOp.open_temp ::
            (records.map SaveOp.write_item ++ [SaveOp.close_temp])).take k
            = SaveOp.open_temp ::
              (records.map SaveOp.write_item ++ [SaveOp.close_temp]) :=
          List.take_of_length_le (by rw [hlen]; omega)
        rw [hBtake, run_save_write_block]
        have hm1 : 1 ≤ k - (SaveOp.open_temp ::
            (records.map SaveOp.write_item ++ [SaveOp.close_temp])).length := by
          rw [hlen]; omega
        generalize hko : k - (SaveOp.open_temp ::
            (records.map SaveOp.write_item ++ [SaveOp.close_temp])).length
            = m at hm1
        cases b with
        | false =>
          rw [if_neg (by simp), List.nil_append,
            List.take_of_length_le (by simpa using hm1)]
          right; right; rfl
        | true =>
          rw [if_pos rfl]
          rcases m with _ | _ | m
          · omega
          · right; left; rfl
          · rw [List.take_of_length_le
              (by simp)]
            right; right; rfl
    refine ⟨hsplit, fun l => ?_⟩
    rcases hsplit with hh | hh | hh <;> rw [hh]
    · exact hfs l
    · simp
    · simp

/-- Counterexample for C3 as stated: saving one new record over a final
file holding one previous record, the crash point right after the
unlink (prefix of length 4: open, write, close, unlink) leaves the final
path holding no file, which is neither the complete previous file nor
the complete new file. -/
theorem C3_counterexample :
    (run_save ⟨FileView.complete [{ rating_key := "1" }], FileView.absent⟩
        ((save_ops [{ rating_key := "2" }] true).take 4)).final
      = FileView.absent
    ∧ FileView.absent ≠ FileView.complete [({ rating_key := "1" } : MediaItem)]
    ∧ FileView.absent ≠ FileView.complete [({ rating_key := "2" } : MediaItem)] :=
  ⟨rfl, by decide, by decide⟩

/-- Witness for C3 at a concrete save of one record over one previous
record, observed at the crash point right after the unlink. -/
theorem C3_witness :
    ((run_save ⟨FileView.complete [{ rating_key := "1" }], FileView.absent⟩
          ((save_ops [{ rating_key := "2" }] true).take 4)).final
        = (⟨FileView.complete [{ rating_key := "1" }], FileView.absent⟩
            : SaveFS).final
      ∨ (run_save ⟨FileView.complete [{ rating_key := "1" }], FileView.absent⟩
          ((save_ops [{ rating_key := "2" }] true).take 4)).final
        = FileView.absent
      ∨ (run_save ⟨FileView.complete [{ rating_key := "1" }], FileView.absent⟩
          ((save_ops [{ rating_key := "2" }] true).take 4)).final
        = FileView.complete [{ rating_key := "2" }])
    ∧ ∀ l, (run_save ⟨FileView.complete [{ rating_key := "1" }], FileView.absent⟩
          ((save_ops [{ rating_key := "2" }] true).take 4)).final
        ≠ FileView.truncated l :=
  C3_save_crash_states [{ rating_key := "2" }]
    ⟨FileView.complete [{ rating_key := "1" }], FileView.absent⟩
    true 4 (fun l => by simp)

lemma foldl_dict_insert_eq_append (items : List MediaItem)
    (acc : List (String × MediaItem))
    (hnd : (items.map (fun it => it.rating_key)).Nodup)
    (hdisj : ∀ it ∈ items, ∀ p ∈ acc, p.1 ≠ it.rating_key) :
    items.foldl (fun m it => dict_insert m it.rating_key it) acc
      = acc ++ items.map (fun it => (it.rating_key, it)) := by
  induction items generalizing acc with
  | nil => simp
  | cons it rest ih =>
    rw [List.foldl_cons]
    have hins : dict_insert acc it.rating_key it
        = acc ++ [(it.rating_key, it)] := by
      unfold dict_insert
      rw [if_neg]
      intro hc
      rw [List.any_eq_true] at hc
      obtain ⟨p, hp, hpk⟩ := hc
      exact hdisj it (List.mem_cons_self _ _) p hp (by simpa using hpk)
    rw [hins]
    rw [List.map_cons, List.nodup_cons] at hnd
    have hdisj2 : ∀ it' ∈ rest, ∀ p ∈ acc ++ [(it.rating_key, it)],
        p.1 ≠ it'.rating_key := by
      intro it' hit' p hp
      rcases List.mem_append.mp hp with hpa | hpb
      · exact hdisj it' (List.mem_cons_of_mem _ hit') p hpa
      · rw [List.mem_singleton] at hpb
        subst hpb
        intro he
        exact hnd.1 (List.mem_map.mpr ⟨it', hit', he.symm⟩)
    rw [ih _ hnd.2 hdisj2]
    simp

lemma dict_of_items_of_nodup (items : List MediaItem)
    (hnd : (items.map (fun it => it.rating_key)).Nodup) :
    dict_of_items items = items.map (fun it => (it.rating_key, it)) := by
  unfold dict_of_items
  simpa using foldl_dict_insert_eq_append items [] hnd (by simp)

/-- C5 (amended). Persistence round-trip for every well-formed NON-EMPTY
list of records (each record carries its mandatory id and the ids are
distinct): saving the records and then loading the resulting file yields
the record set keyed by id, equal field-for-field to the saved records
(the wire format preserves every present field and the absence of every
absent one, so no defaulting arises on this path). For the empty list the
round trip fails as stated: `save_cache_to_disk` refuses to write an
empty cache (it logs a warning and leaves the previous file in place), so
loading returns the previous file's contents, which is empty only when no
prior file exists, see the counterexample. -/
theorem C5_roundtrip (records : List MediaItem) (fs : SaveFS)
    (s : CacheState) (now : Int)
    (hne : records ≠ [])
    (hnd : (records.map (fun it => it.rating_key)).Nodup) :
    (load_cache_from_disk s
        (run_save fs (save_ops records (final_exists fs))).final now).media_items
      = records.map (fun it => (it.rating_key, it)) := by
  rw [run_save_save_ops_final records fs _ hne]
  simp [load_cache_from_disk, dict_of_items_of_nodup records hnd]

/-- Counterexample for C5 as stated for the empty list: with a prior
file holding one record, saving the empty record list performs no file
operation at all, so the subsequent load returns the prior record
rather than the empty set. -/
theorem C5_counterexample :
    (load_cache_from_disk
        { media_items := [], last_updated := none, update_interval := 3600 }
        ((run_save
            ⟨FileView.complete [{ rating_key := "1" }], FileView.absent⟩
            (save_ops []
              (final_exists
                ⟨FileView.complete [{ rating_key := "1" }],
                  FileView.absent⟩))).final)
        100).media_items
      = [("1", { rating_key := "1" })]
    ∧ ([("1", ({ rating_key := "1" } : MediaItem))]
        : List (String × MediaItem)) ≠ [] :=
  ⟨rfl, by decide⟩

/-- Witness for C5 at a concrete two-record save onto an empty
filesystem. -/
theorem C5_witness :
    (load_cache_from_disk
        { media_items := [], last_updated := none, update_interval := 3600 }
        ((run_save ⟨FileView.absent, FileView.absent⟩
            (save_ops [{ rating_key := "1", title := some "A" },
                { rating_key := "2" }]
              (final_exists ⟨FileView.absent, FileView.absent⟩))).final)
        100).media_items
      = [("1", { rating_key := "1", title := some "A" }),
         ("2", { rating_key := "2" })] :=
  C5_roundtrip
    [{ rating_key := "1", title := some "A" }, { rating_key := "2" }]
    ⟨FileView.absent, FileView.absent⟩
    { media_items := [], last_updated := none, update_interval := 3600 }
    100 (by decide) (by decide)

/-- Program counter of one caller running
`ensure_cache_valid` / `update_cache`: `check` is the unlocked validity
check of `ensure_cache_valid` (media_cache.py line 87), `wait` is a
pending `async with self.cache_lock` at the top of `update_cache` (line
92), `locked` is the critical section holding the lock (lines 93-111),
`stuck` is a caller that has completed the fetch-and-swap and is now
awaiting `save_cache_to_disk` at line 114: that call re-acquires the
same non-reentrant `cache_lock` (line 259) while this caller still holds
it, so the caller never proceeds, never releases the lock and never
returns (the deadlock proved by the C2 theorem). `done` means the call
has returned. -/
inductive PC where
  | check
  | wait
  | locked
  | stuck
  | done
deriving Repr, DecidableEq

/-- Global state of N concurrent callers over one cache object: the lock
holder (if any), whether the cache is currently valid, the number of
fetch-and-swap sequences that have executed, and each caller's program
counter. -/
structure RefreshState where
  lock : Option Nat
  valid : Bool
  fetches : Nat
  pcs : List PC
deriving Repr, DecidableEq

/-- One step of caller `i`, following the source control flow: at `check`
the caller returns at once when the cache is valid (lines 87-88) and
otherwise proceeds towards the lock; at `wait` the caller acquires the
lock when it is free and stays blocked otherwise; at `locked` the caller
re-checks validity under the lock (lines 93-95) and either returns at
once, or performs the fetch-and-swap sequence (lines 98-111), which makes
the cache valid, and then awaits `save_cache_to_disk` (line 114) while
still holding the non-reentrant lock, which re-acquires the same lock and
deadlocks: the caller moves to the absorbing `stuck` state, keeping the
lock held, and never reaches `done`. The fetch-and-swap is one step here
because every caller that has observed staleness is blocked on the lock
while it runs, and the cooperative scheduler runs the validity re-check
atomically with the decision to fetch (no await between them). A
successful fetch is modelled; the failure branches that leave the state
stale are covered by C4. -/
def step_caller (s : RefreshState) (i : Nat) : RefreshState :=
  match s.pcs[i]? with
  | none => s
  | some pc =>
    match pc with
    | .check =>
      if s.valid then { s with pcs := s.pcs.set i .done }
      else { s with pcs := s.pcs.set i .wait }
    | .wait =>
      match s.lock with
      | none => { s with lock := some i, pcs := s.pcs.set i .locked }
      | some _ => s
    | .locked =>
      if s.valid then { s with lock := none, pcs := s.pcs.set i .done }
      else
        { s with
          valid := true
          fetches := s.fetches + 1
          pcs := s.pcs.set i .stuck }
    | .stuck => s
    | .done => s

/-- Execution of an arbitrary interleaving: the schedule lists which
caller steps next. -/
def run_sched (s : RefreshState) (sched : List Nat) : RefreshState :=
  sched.foldl step_caller s

/-- Initial state for N concurrent callers on a stale cache: no lock
holder, cache invalid, no fetch has run, every caller before its first
check. -/
def init_refresh (n : Nat) : RefreshState :=
  { lock := none, valid := false, fetches := 0,
    pcs := List.replicate n PC.check }

/-- Inductive invariant of the refresh protocol as implemented: validity
is equivalent to one fetch having run, never more than one fetch runs, a
caller only returns once a fetch has run, and once a fetch has run the
caller that performed it is stuck in the save call and never returns. -/
def refresh_inv (s : RefreshState) : Prop :=
  (s.valid = true → s.fetches = 1)
  ∧ s.fetches ≤ 1
  ∧ (s.valid = false → s.fetches = 0)
  ∧ (∀ i : Nat, s.pcs[i]? = some PC.done → s.fetches = 1)
  ∧ (s.fetches = 1 → ∃ j : Nat, s.pcs[j]? = some PC.stuck)

lemma pcs_set_done (l : List PC) (i j : Nat) (pc : PC) (hpc : pc ≠ PC.done)
    (hj : (l.set i pc)[j]? = some PC.done) : l[j]? = some PC.done := by
  by_cases hij : i = j
  · subst hij
    rw [List.getElem?_set] at hj
    rw [if_pos rfl] at hj
    by_cases hlt : i < l.length
    · rw [if_pos hlt] at hj
      exact absurd (Option.some.inj hj) hpc
    · rw [if_neg hlt] at hj
      exact absurd hj (by simp)
  · rwa [List.getElem?_set_ne hij] at hj

lemma stuck_survives_set (l : List PC) (i : Nat) (pc pc0 : PC)
    (hi : l[i]? = some pc0) (h0 : pc0 ≠ PC.stuck)
    (h : ∃ j : Nat, l[j]? = some PC.stuck) :
    ∃ j : Nat, (l.set i pc)[j]? = some PC.stuck := by
  obtain ⟨j, hj⟩ := h
  have hij : i ≠ j := by
    intro he
    subst he
    rw [hi] at hj
    exact h0 (Option.some.inj hj)
  exact ⟨j, by rw [List.getElem?_set_ne hij]; exact hj⟩

lemma step_caller_inv (s : RefreshState) (i : Nat) (h : refresh_inv s) :
    refresh_inv (step_caller s i) := by
  unfold refresh_inv at h ⊢
  obtain ⟨h1, h2, h3, h4, h5⟩ := h
  cases hpc : s.pcs[i]? with
  | none =>
    have heq : step_caller s i = s := by simp [step_caller, hpc]
    rw [heq]
    exact ⟨h1, h2, h3, h4, h5⟩
  | some pc =>
    cases pc with
    | check =>
      cases hv : s.valid with
      | true =>
        have heq : step_caller s i = { s with pcs := s.pcs.set i PC.done } := by
          simp [step_caller, hpc, hv]
        rw [heq]
        exact ⟨fun _ => h1 hv, h2, fun hf => by simp [hv] at hf,
          fun j _ => h1 hv,
          fun hf => stuck_survives_set s.pcs i PC.done PC.check hpc
            (by simp) (h5 hf)⟩
      | false =>
        have heq : step_caller s i = { s with pcs := s.pcs.set i PC.wait } := by
          simp [step_caller, hpc, hv]
        rw [heq]
        exact ⟨h1, h2, h3,
          fun j hj => h4 j (pcs_set_done s.pcs i j PC.wait (by simp) hj),
          fun hf => stuck_survives_set s.pcs i PC.wait PC.check hpc
            (by simp) (h5 hf)⟩
    | wait =>
      cases hl : s.lock with
      | none =>
        have heq : step_caller s i
            = { s with lock := some i, pcs := s.pcs.set i PC.locked } := by
          simp [step_caller, hpc, hl]
        rw [heq]
        exact ⟨h1, h2, h3,
          fun j hj => h4 j (pcs_set_done s.pcs i j PC.locked (by simp) hj),
          fun hf => stuck_survives_set s.pcs i PC.locked PC.wait hpc
            (by simp) (h5 hf)⟩
      | some holder =>
        have heq : step_caller s i = s := by simp [step_caller, hpc, hl]
        rw [heq]
        exact ⟨h1, h2, h3, h4, h5⟩
    | locked =>
      cases hv : s.valid with
      | true =>
        have heq : step_caller s i
            = { s with lock := none, pcs := s.pcs.set i PC.done } := by
          simp [step_caller, hpc, hv]
        rw [heq]
        exact ⟨fun _ => h1 hv, h2, fun hf => by simp [hv] at hf,
          fun j _ => h1 hv,
          fun hf => stuck_survives_set s.pcs i PC.done PC.locked hpc
            (by simp) (h5 hf)⟩
      | false =>
        have hz : s.fetches = 0 := h3 hv
        have hlt : i < s.pcs.length := by
          rcases List.getElem?_eq_some_iff.mp hpc with ⟨hl, _⟩
          exact hl
        have heq : step_caller s i
            = { s with valid := true, fetches := s.fetches + 1, pcs := s.pcs.set i PC.stuck } := by
          simp [step_caller, hpc, hv]
        rw [heq]
        refine ⟨fun _ => ?_, ?_, fun hf => ?_, fun j _ => ?_, fun _ => ?_⟩
        · show s.fetches + 1 = 1
          omega
        · show s.fetches + 1 ≤ 1
          omega
        · simp at hf
        · show s.fetches + 1 = 1
          omega
        · exact ⟨i, List.getElem?_set_self hlt⟩
    | stuck =>
      have heq : step_caller s i = s := by simp [step_caller, hpc]
      rw [heq]
      exact ⟨h1, h2, h3, h4, h5⟩
    | done =>
      have heq : step_caller s i = s := by simp [step_caller, hpc]
      rw [heq]
      exact ⟨h1, h2, h3, h4, h5⟩

lemma run_sched_inv (sched : List Nat) (s : RefreshState)
    (h : refresh_inv s) : refresh_inv (run_sched s sched) := by
  induction sched generalizing s with
  | nil => exact h
  | cons i rest ih =>
    simp only [run_sched, List.foldl_cons]
    simp only [run_sched] at ih
    exact ih _ (step_caller_inv s i h)

lemma step_caller_pcs_length (s : RefreshState) (i : Nat) :
    (step_caller s i).pcs.length = s.pcs.length := by
  unfold step_caller
  cases hpc : s.pcs[i]? with
  | none => rfl
  | some pc =>
    cases pc with
    | check => cases s.valid <;> simp
    | wait => cases s.lock <;> simp
    | locked => cases s.valid <;> simp
    | stuck => rfl
    | done => rfl

lemma run_sched_pcs_length (sched : List Nat) (s : RefreshState) :
    (run_sched s sched).pcs.length = s.pcs.length := by
  induction sched generalizing s with
  | nil => rfl
  | cons i rest ih =>
    simp only [run_sched, List.foldl_cons]
    simp only [run_sched] at ih
    rw [ih (step_caller s i), step_caller_pcs_length]

/-- C1 evaluated on the code: in every interleaving of every number of
concurrent callers from a stale initial state, the check-acquire-recheck
protocol lets at most one fetch-and-swap sequence execute (the safety
half of the claim, which the code implements correctly); but the caller
that fetches then deadlocks in the save call while holding the lock (the
C2 bug), so in no interleaving with at least one caller do all callers
return: the claim that the remaining callers return without fetching
fails on the code as written. -/
theorem C1_one_fetch_but_no_return (n : Nat) (sched : List Nat) :
    (run_sched (init_refresh n) sched).fetches ≤ 1
    ∧ (0 < n →
        ¬(∀ i, i < n →
            (run_sched (init_refresh n) sched).pcs[i]? = some PC.done)) := by
  have hinv0 : refresh_inv (init_refresh n) := by
    unfold refresh_inv
    refine ⟨fun hv => ?_, ?_, fun _ => rfl, fun i hi => ?_, fun hf => ?_⟩
    · simp [init_refresh] at hv
    · simp [init_refresh]
    · simp only [init_refresh, List.getElem?_replicate] at hi
      split at hi
      · exact absurd (Option.some.inj hi) (by simp)
      · exact absurd hi (by simp)
    · simp [init_refresh] at hf
  have hinv := run_sched_inv sched _ hinv0
  unfold refresh_inv at hinv
  obtain ⟨h1, h2, h3, h4, h5⟩ := hinv
  refine ⟨h2, fun hn hall => ?_⟩
  obtain ⟨j, hj⟩ := h5 (h4 0 (hall 0 hn))
  have hjn : j < n := by
    rcases List.getElem?_eq_some_iff.mp hj with ⟨hl, _⟩
    rw [run_sched_pcs_length] at hl
    simpa [init_refresh] using hl
  have hdone := hall j hjn
  rw [hj] at hdone
  exact absurd (Option.some.inj hdone) (by simp)

/-- Witness for C1 at the concrete failing input: two callers, caller 0
checks, acquires, fetches and then sticks in the save call holding the
lock; caller 1 checks, sees the fresh cache and returns without fetching.
Exactly one fetch has run, caller 1 is done, caller 0 never returns, so
not every caller returns. -/
theorem C1_witness :
    ¬(∀ i, i < 2 →
        (run_sched (init_refresh 2) [0, 0, 0, 1]).pcs[i]? = some PC.done)
    ∧ (run_sched (init_refresh 2) [0, 0, 0, 1]).fetches = 1
    ∧ (run_sched (init_refresh 2) [0, 0, 0, 1]).pcs[0]? = some PC.stuck
    ∧ (run_sched (init_refresh 2) [0, 0, 0, 1]).pcs[1]? = some PC.done :=
  ⟨(C1_one_fetch_but_no_return 2 [0, 0, 0, 1]).2 (by decide),
    by decide, by decide, by decide⟩

/-- One step of `update_cache` and `save_cache_to_disk` as seen by the
single non-reentrant `asyncio.Lock` named `cache_lock`: acquiring it,
releasing it, work that does not involve the lock, and the disk write
(temp file write plus rename). -/
inductive LockOp where
  | acq
  | rel
  | work
  | disk_write
deriving Repr, DecidableEq

/-- The lock operations of `MediaCache.save_cache_to_disk`
(media_cache.py lines 253-299): acquire `cache_lock` (line 259), snapshot
the item list, release the lock when the `async with` block ends (line
270), then perform the disk write and rename outside the lock (lines
273-295). -/
def save_cache_to_disk_ops : List LockOp :=
  [LockOp.acq, LockOp.work, LockOp.rel, LockOp.disk_write]

/-- The lock operations of the success path of `MediaCache.update_cache`
(media_cache.py lines 90-119): acquire `cache_lock` (line 92), re-check
validity, run the connection test, the fetch and the in-memory swap
(lines 93-111), then invoke `save_cache_to_disk` at line 114 still inside
the `async with` block, and release the lock when the block exits. -/
def update_cache_ops : List LockOp :=
  [LockOp.acq, LockOp.work] ++ save_cache_to_disk_ops ++ [LockOp.rel]

/-- Execution of lock operations by a single task over a non-reentrant
lock, starting from the given held state: acquiring the lock while the
same task already holds it never completes, because `asyncio.Lock` is not
reentrant and the holder cannot release while awaiting the acquire; this
deadlock is modelled as `none`, otherwise the final held state is
returned. -/
def lock_ops_run : Bool → List LockOp → Option Bool
  | held, [] => some held
  | true, LockOp.acq :: _ => none
  | false, LockOp.acq :: rest => lock_ops_run true rest
  | _, LockOp.rel :: rest => lock_ops_run false rest
  | held, LockOp.work :: rest => lock_ops_run held rest
  | held, LockOp.disk_write :: rest => lock_ops_run held rest

/-- The operations a single task actually executes before deadlocking
(all of them when no deadlock occurs). -/
def lock_ops_exec : Bool → List LockOp → List LockOp
  | _, [] => []
  | true, LockOp.acq :: _ => []
  | false, LockOp.acq :: rest => LockOp.acq :: lock_ops_exec true rest
  | _, LockOp.rel :: rest => LockOp.rel :: lock_ops_exec false rest
  | held, LockOp.work :: rest => LockOp.work :: lock_ops_exec held rest
  | held, LockOp.disk_write :: rest =>
    LockOp.disk_write :: lock_ops_exec held rest

/-- C2 refuted (code bug): `update_cache` calls `save_cache_to_disk`
inside its `async with cache_lock` block, so the save is invoked while
the exclusive lock is held (the lock state at the call site is `true`,
not `false` as the claim requires), and because `save_cache_to_disk`
re-acquires the same non-reentrant lock, the success path of
`update_cache` deadlocks and its disk write is never executed at all. -/
theorem C2_save_invoked_under_lock :
    lock_ops_run false [LockOp.acq, LockOp.work] = some true
    ∧ lock_ops_run false update_cache_ops = none
    ∧ (lock_ops_exec false update_cache_ops).contains LockOp.disk_write
        = false :=
  ⟨rfl, rfl, rfl⟩
